import Mathlib

/-!
Shallow embedding of `GetLyricSunoFixTime` (src/index.js), a CLI that fetches
time-aligned lyrics and converts them to SRT or LRC subtitle text.

JavaScript numbers holding second offsets are modelled as exact rationals `ℚ`;
the `Date` millisecond clamp (`TimeClip`, truncation toward zero) and the UTC
component getters (floor division / Euclidean remainder) are modelled explicitly
on `ℤ` milliseconds.  Strings are Lean `String`s; template literals become `++`.
-/

namespace Suno

/-- One aligned-word record `{word, start_s, end_s}` from the remote payload. -/
structure AlignedWord where
  word : String
  start_s : ℚ
  end_s : ℚ
deriving DecidableEq, Inhabited

/-- Truncation toward zero, as JavaScript `ToIntegerOrInfinity` applies to a
finite number (used by `TimeClip` when `Date.prototype.setMilliseconds` stores
`seconds * 1000`). -/
def truncTowardZero (q : ℚ) : ℤ :=
  if 0 ≤ q then q.floor else q.ceil

/-- The millisecond time value held by `new Date(0)` after
`date.setMilliseconds(seconds * 1000)`. -/
def jsMs (seconds : ℚ) : ℤ :=
  truncTowardZero (seconds * 1000)

/-- JavaScript `Date.prototype.getUTCHours` on time value `t` (ms). -/
def utcHours (t : ℤ) : ℤ := (t.fdiv 3600000).emod 24

/-- JavaScript `Date.prototype.getUTCMinutes` on time value `t` (ms). -/
def utcMinutes (t : ℤ) : ℤ := (t.fdiv 60000).emod 60

/-- JavaScript `Date.prototype.getUTCSeconds` on time value `t` (ms). -/
def utcSeconds (t : ℤ) : ℤ := (t.fdiv 1000).emod 60

/-- JavaScript `Date.prototype.getUTCMilliseconds` on time value `t` (ms). -/
def utcMillis (t : ℤ) : ℤ := t.emod 1000

/-- JavaScript `String(n).padStart(w, '0')` for a nonnegative integer `n`. -/
def padZero (n : ℕ) (w : ℕ) : String :=
  String.mk (List.replicate (w - (Nat.repr n).length) '0') ++ Nat.repr n

/-- Model of `formatSRTTime(seconds)` from src/index.js: `HH:MM:SS,mmm` of the UTC
components of the truncated millisecond value. -/
def formatSRTTime (seconds : ℚ) : String :=
  let t := jsMs seconds
  padZero (utcHours t).toNat 2 ++ ":" ++ padZero (utcMinutes t).toNat 2 ++ ":" ++
    padZero (utcSeconds t).toNat 2 ++ "," ++ padZero (utcMillis t).toNat 3

/-- Model of `formatLRCTime(seconds)` from src/index.js: `[MM:SS.hh]` where `hh` is
`Math.floor(getUTCMilliseconds() / 10)`. -/
def formatLRCTime (seconds : ℚ) : String :=
  let t := jsMs seconds
  "[" ++ padZero (utcMinutes t).toNat 2 ++ ":" ++ padZero (utcSeconds t).toNat 2 ++
    "." ++ padZero ((utcMillis t).toNat / 10) 2 ++ "]"

/-- The string appended for word `w` at 0-based position `i` in one iteration of
`convertToSRT`'s `forEach`. -/
def srtEntry (w : AlignedWord) (i : ℕ) : String :=
  Nat.repr (i + 1) ++ "\n" ++ formatSRTTime w.start_s ++ " --> " ++
    formatSRTTime w.end_s ++ "\n" ++ w.word ++ "\n\n"

/-- Model of `convertToSRT(alignedWords)` from src/index.js: accumulate `srtEntry` over
the words with their `forEach` indices. -/
def convertToSRT (alignedWords : List AlignedWord) : String :=
  alignedWords.enum.foldl (fun acc p => acc ++ srtEntry p.2 p.1) ""

/-- The string appended for word `w` in one iteration of `convertToLRC`'s
`forEach`. -/
def lrcLine (w : AlignedWord) : String :=
  formatLRCTime w.start_s ++ w.word ++ "\n"

/-- Model of `convertToLRC(alignedWords)` from src/index.js. -/
def convertToLRC (alignedWords : List AlignedWord) : String :=
  alignedWords.foldl (fun acc w => acc ++ lrcLine w) ""

/-! ### Fetch client (`fetchAlignedWords`) -/

/-- An HTTP response as seen by axios: a status code and the parsed body's
`aligned_words` field (`none` when the field is absent, e.g. a malformed or
empty body). -/
structure HttpResponse where
  status : ℕ
  alignedWords : Option (List AlignedWord)

/-- The outcome of one `axios.get`: either a response arrived (axios resolves
for 2xx and rejects with `err.response` set otherwise), or the request failed
without any response (network failure; `err.response` is undefined). -/
inductive HttpOutcome where
  | response (r : HttpResponse)
  | networkFailure

/-- What `fetchAlignedWords` produces for its caller: the resolved
`aligned_words` array, a `null` resolution (modelled as `noWords`), or the
thrown `TOKEN_INVALID` error. -/
inductive FetchResult where
  | ok (words : List AlignedWord)
  | noWords
  | authError
deriving DecidableEq

/-- Model of `fetchAlignedWords(songId, token)` from src/index.js, as a function of the
remote outcome.  axios resolves exactly for statuses in [200, 300); then the
body's `aligned_words` is returned if present, else `null`.  A rejection with
status 401 is rethrown as `TOKEN_INVALID`; every other rejection is logged and
becomes `null`. -/
def fetchAlignedWords (o : HttpOutcome) : FetchResult :=
  match o with
  | .response r =>
    if 200 ≤ r.status ∧ r.status < 300 then
      match r.alignedWords with
      | some ws => .ok ws
      | none => .noWords
    else if r.status = 401 then .authError
    else .noWords
  | .networkFailure => .noWords

/-! ### Interactive driver (`main`) -/

/-- Console events of the per-song loop in `main`, in emission order. -/
inductive LogEvent where
  | saved
  | warnedNoWords
  | abortedAuth
  | done
deriving DecidableEq

/-- The per-song event for a fetch outcome: a non-null result is converted and
saved, a null result warns and continues, a thrown `TOKEN_INVALID` logs and
breaks. -/
def songEvent (r : FetchResult) : LogEvent :=
  match r with
  | .ok _ => .saved
  | .noWords => .warnedNoWords
  | .authError => .abortedAuth

/-- The `for (const songId of songIds)` loop of `main`, as a function of the
fetch outcome at each position: `continue` on null, `break` on
`TOKEN_INVALID`. -/
def processSongs : List FetchResult → List LogEvent
  | [] => []
  | .ok _ :: rest => .saved :: processSongs rest
  | .noWords :: rest => .warnedNoWords :: processSongs rest
  | .authError :: _ => [.abortedAuth]

/-- Model of `main` after the prompts: run the loop, then print `All done!`. -/
def mainRun (rs : List FetchResult) : List LogEvent :=
  processSongs rs ++ [.done]

/-! ### Token store (`loadToken`) -/

/-- JavaScript `String.prototype.trim`: strip leading and trailing
whitespace. -/
def jsTrim (s : String) : String :=
  String.mk (((s.data.dropWhile Char.isWhitespace).reverse.dropWhile
    Char.isWhitespace).reverse)

/-- JavaScript `String.prototype.toLowerCase` (ASCII case mapping suffices for
the `'n'` comparison in `loadToken`). -/
def jsToLower (s : String) : String :=
  String.mk (s.data.map Char.toLower)

/-- The environment `loadToken` interacts with: the current content of
`token.txt` (the file always exists, created empty at startup), the successive
interactive answers, and the outcome of the validation fetch for a given token
string. -/
structure TokenEnv where
  saved : String
  choice : String
  entry1 : String
  entry2 : String
  probe : String → FetchResult

/-- What a run of `loadToken` did: the returned token, the successive contents
written to `token.txt`, and the tokens passed to the `dummy-check` validation
fetch, in order. -/
structure LoadResult where
  token : String
  writes : List String
  probed : List String
deriving DecidableEq

/-- The validation block at the end of `loadToken`: one `dummy-check` fetch
with the current token; on `TOKEN_INVALID` re-prompt once and persist, with no
second probe; then return the trimmed token. -/
def validateToken (env : TokenEnv) (token : String) (writes : List String) :
    LoadResult :=
  match env.probe token with
  | .authError =>
      { token := jsTrim env.entry2, writes := writes ++ [jsTrim env.entry2],
        probed := [token] }
  | _ => { token := jsTrim token, writes := writes, probed := [token] }

/-- Model of `loadToken()` from src/index.js as a function of its environment.  A
non-empty saved token is offered for reuse; answering `n` prompts for a new
token, persists it, and returns it immediately.  Otherwise the saved (or
freshly prompted and persisted) token goes through the validation block. -/
def loadToken (env : TokenEnv) : LoadResult :=
  let savedT := jsTrim env.saved
  if savedT ≠ "" then
    if jsToLower env.choice = "n" then
      { token := jsTrim env.entry1, writes := [jsTrim env.entry1], probed := [] }
    else
      validateToken env savedT []
  else
    validateToken env env.entry1 [jsTrim env.entry1]

/-! ### File writer (`saveFile`) -/

/-- Hinnant's `civil_from_days`: the proleptic-Gregorian year, month and day
for a day count relative to 1970-01-01, which is what
`Date.prototype.toISOString` reads back for any time value. -/
def civilFromDays (z : ℤ) : ℤ × ℕ × ℕ :=
  let z' := z + 719468
  let era := z'.fdiv 146097
  let doe := (z'.emod 146097).toNat
  let yoe := (doe - doe / 1460 + doe / 36524 - doe / 146096) / 365
  let doy := doe - (365 * yoe + yoe / 4 - yoe / 100)
  let mp := (5 * doy + 2) / 153
  let d := doy - (153 * mp + 2) / 5 + 1
  let m := if mp < 10 then mp + 3 else mp - 9
  ((yoe : ℤ) + era * 400 + (if m ≤ 2 then 1 else 0), m, d)

/-- JavaScript `Date.prototype.toISOString` for an integer millisecond time value:
`YYYY-MM-DDTHH:mm:ss.sssZ` (expanded `±YYYYYY` years outside [0, 9999]). -/
def isoString (t : ℤ) : String :=
  let days := t.fdiv 86400000
  let ms := (t.emod 86400000).toNat
  let ymd := civilFromDays days
  let y := ymd.1
  let yearStr :=
    if 0 ≤ y ∧ y ≤ 9999 then padZero y.toNat 4
    else if y < 0 then "-" ++ padZero (-y).toNat 6
    else "+" ++ padZero y.toNat 6
  yearStr ++ "-" ++ padZero ymd.2.1 2 ++ "-" ++ padZero ymd.2.2 2 ++ "T" ++
    padZero (ms / 3600000) 2 ++ ":" ++ padZero (ms / 60000 % 60) 2 ++ ":" ++
    padZero (ms / 1000 % 60) 2 ++ "." ++ padZero (ms % 1000) 3 ++ "Z"

/-- Model of the expression with a regex replacing each colon and dot by a dash applied to the ISO timestamp in `saveFile`: the
regex matches single characters, so this is a per-character substitution. -/
def sanitizeTimestamp (s : String) : String :=
  String.mk (s.data.map fun c => if c = ':' ∨ c = '.' then '-' else c)

/-- The output filename computed by `saveFile(content, fileType, songId)` when
the wall clock reads `t` milliseconds since the epoch. -/
def saveFileName (songId fileType : String) (t : ℤ) : String :=
  "aligned_words_" ++ songId ++ "_" ++ sanitizeTimestamp (isoString t) ++
    "." ++ fileType

/-! ### Helper lemmas about string concatenation and the converters -/

lemma foldl_str (l : List String) (s t : String) :
    l.foldl (· ++ ·) (s ++ t) = s ++ l.foldl (· ++ ·) t := by
  induction l generalizing t with
  | nil => rfl
  | cons a l ih =>
      show l.foldl (· ++ ·) (s ++ t ++ a) = s ++ l.foldl (· ++ ·) (t ++ a)
      rw [String.append_assoc, ih]

lemma join_cons (a : String) (l : List String) :
    String.join (a :: l) = a ++ String.join l := by
  show l.foldl (· ++ ·) ("" ++ a) = a ++ String.join l
  rw [String.empty_append]
  conv_lhs => rw [show a = a ++ "" from (String.append_empty a).symm]
  rw [foldl_str]
  rfl

lemma join_append (l₁ l₂ : List String) :
    String.join (l₁ ++ l₂) = String.join l₁ ++ String.join l₂ := by
  induction l₁ with
  | nil => exact (String.empty_append _).symm
  | cons a l ih =>
      rw [List.cons_append, join_cons, join_cons, ih, String.append_assoc]

lemma foldl_append_eq_join {α : Type} (f : α → String) (l : List α) (s : String) :
    l.foldl (fun acc x => acc ++ f x) s = s ++ String.join (l.map f) := by
  induction l generalizing s with
  | nil => exact (String.append_empty s).symm
  | cons a l ih =>
      show l.foldl (fun acc x => acc ++ f x) (s ++ f a) =
        s ++ String.join (f a :: l.map f)
      rw [ih, join_cons, String.append_assoc]

lemma convertToLRC_eq_join (ws : List AlignedWord) :
    convertToLRC ws = String.join (ws.map lrcLine) := by
  unfold convertToLRC
  rw [foldl_append_eq_join, String.empty_append]

lemma convertToSRT_eq_join (ws : List AlignedWord) :
    convertToSRT ws = String.join (ws.enum.map fun p => srtEntry p.2 p.1) := by
  unfold convertToSRT
  rw [foldl_append_eq_join, String.empty_append]

lemma repr_length_le_two : ∀ n : ℕ, n < 100 → (Nat.repr n).length ≤ 2 := by
  decide

lemma padZero_two_length (n : ℕ) (h : n < 100) : (padZero n 2).length = 2 := by
  unfold padZero
  rw [String.length_append]
  have h1 : (Nat.repr n).length ≤ 2 := repr_length_le_two n h
  have h2 : (String.mk (List.replicate (2 - (Nat.repr n).length) '0')).length =
      2 - (Nat.repr n).length := List.length_replicate _ _
  omega

lemma newline_not_mem_padZero : ∀ n : ℕ, n < 100 → '\n' ∉ (padZero n 2).data := by
  decide

lemma utcMinutes_toNat_lt (t : ℤ) : (utcMinutes t).toNat < 60 := by
  unfold utcMinutes
  have h1 : 0 ≤ (t.fdiv 60000).emod 60 := Int.emod_nonneg _ (by norm_num)
  have h2 : (t.fdiv 60000).emod 60 < 60 := Int.emod_lt_of_pos _ (by norm_num)
  omega

lemma utcSeconds_toNat_lt (t : ℤ) : (utcSeconds t).toNat < 60 := by
  unfold utcSeconds
  have h1 : 0 ≤ (t.fdiv 1000).emod 60 := Int.emod_nonneg _ (by norm_num)
  have h2 : (t.fdiv 1000).emod 60 < 60 := Int.emod_lt_of_pos _ (by norm_num)
  omega

lemma utcMillis_toNat_lt (t : ℤ) : (utcMillis t).toNat < 1000 := by
  unfold utcMillis
  have h1 : 0 ≤ t.emod 1000 := Int.emod_nonneg _ (by norm_num)
  have h2 : t.emod 1000 < 1000 := Int.emod_lt_of_pos _ (by norm_num)
  omega

lemma formatLRCTime_no_newline (s : ℚ) : '\n' ∉ (formatLRCTime s).data := by
  unfold formatLRCTime
  simp only [String.data_append, List.mem_append]
  push_neg
  refine ⟨⟨⟨⟨⟨⟨?_, ?_⟩, ?_⟩, ?_⟩, ?_⟩, ?_⟩, ?_⟩
  · decide
  · exact newline_not_mem_padZero _ (by have := utcMinutes_toNat_lt (jsMs s); omega)
  · decide
  · exact newline_not_mem_padZero _ (by have := utcSeconds_toNat_lt (jsMs s); omega)
  · decide
  · exact newline_not_mem_padZero _ (by have := utcMillis_toNat_lt (jsMs s); omega)
  · decide

lemma count_newline_lrcLine (w : AlignedWord) (h : '\n' ∉ w.word.data) :
    (lrcLine w).data.count '\n' = 1 := by
  unfold lrcLine
  rw [String.data_append, String.data_append, List.count_append,
    List.count_append, List.count_eq_zero.mpr (formatLRCTime_no_newline _),
    List.count_eq_zero.mpr h]
  decide

lemma count_newline_convertToLRC (ws : List AlignedWord)
    (h : ∀ w ∈ ws, '\n' ∉ w.word.data) :
    (convertToLRC ws).data.count '\n' = ws.length := by
  rw [convertToLRC_eq_join]
  induction ws with
  | nil => rfl
  | cons a l ih =>
      rw [List.map_cons, join_cons, String.data_append, List.count_append,
        count_newline_lrcLine a (h a (.head _)),
        ih (fun w hw => h w (.tail _ hw)), List.length_cons]
      omega

end Suno

namespace Suno

/-- C3: for every input list the SRT output is the concatenation, in input
order, of one block per word; the block at position `i` (0-based) carries the
index line `i + 1`, so the index lines are `1, 2, 3, …` strictly increasing
from 1; each block ends with its text line followed by a blank separator line
(the trailing `"\n\n"`); the empty input yields the empty string. -/
theorem convertToSRT_structure (ws : List AlignedWord) :
    convertToSRT ws = String.join (ws.enum.map fun p => srtEntry p.2 p.1) ∧
    (ws.enum.map fun p => srtEntry p.2 p.1).length = ws.length ∧
    (∀ i w, ws.get? i = some w →
      (ws.enum.map fun p => srtEntry p.2 p.1).get? i =
        some (Nat.repr (i + 1) ++ "\n" ++ formatSRTTime w.start_s ++ " --> " ++
          formatSRTTime w.end_s ++ "\n" ++ w.word ++ "\n\n")) ∧
    convertToSRT [] = "" := by
  refine ⟨convertToSRT_eq_join ws, ?_, ?_, rfl⟩
  · rw [List.length_map, List.enum_length]
  · intro i w h
    rw [List.get?_map, List.get?_enum, h]
    rfl

/-- Witness for C3: the second block of a two-word input carries index line
`2` and is exactly as stated. -/
theorem convertToSRT_structure_witness :
    (([{ word := "a", start_s := 1, end_s := 2 },
       { word := "b", start_s := 3, end_s := 4 }] :
        List AlignedWord).enum.map fun p => srtEntry p.2 p.1).get? 1 =
      some (Nat.repr 2 ++ "\n" ++ formatSRTTime 3 ++ " --> " ++
        formatSRTTime 4 ++ "\n" ++ "b" ++ "\n\n") :=
  (convertToSRT_structure [{ word := "a", start_s := 1, end_s := 2 },
      { word := "b", start_s := 3, end_s := 4 }]).2.2.1 1
    { word := "b", start_s := 3, end_s := 4 } rfl

/-- C4: for every input list the LRC output is the concatenation, in input
order, of one line per word; each line begins with the timestamp
`[MM:SS.hh]` — two two-digit components below 60 and a two-digit hundredths
component that is the millisecond component divided by 10, truncated — and
ends with a single newline; when no word text contains a newline the output
has exactly one `'\n'` per input word; the empty input yields the empty
string. -/
theorem convertToLRC_structure (ws : List AlignedWord) :
    convertToLRC ws = String.join (ws.map lrcLine) ∧
    (∀ w ∈ ws, ∃ mm ss hh : ℕ, mm < 60 ∧ ss < 60 ∧ hh < 100 ∧
      hh = (utcMillis (jsMs w.start_s)).toNat / 10 ∧
      (padZero mm 2).length = 2 ∧ (padZero ss 2).length = 2 ∧
      (padZero hh 2).length = 2 ∧
      lrcLine w = "[" ++ padZero mm 2 ++ ":" ++ padZero ss 2 ++ "." ++
        padZero hh 2 ++ "]" ++ w.word ++ "\n") ∧
    ((∀ w ∈ ws, '\n' ∉ w.word.data) →
      (convertToLRC ws).data.count '\n' = ws.length) ∧
    convertToLRC [] = "" := by
  refine ⟨convertToLRC_eq_join ws, ?_, count_newline_convertToLRC ws, rfl⟩
  intro w _
  have hmm := utcMinutes_toNat_lt (jsMs w.start_s)
  have hss := utcSeconds_toNat_lt (jsMs w.start_s)
  have hms := utcMillis_toNat_lt (jsMs w.start_s)
  exact ⟨(utcMinutes (jsMs w.start_s)).toNat, (utcSeconds (jsMs w.start_s)).toNat,
    (utcMillis (jsMs w.start_s)).toNat / 10, hmm, hss, by omega, rfl,
    padZero_two_length _ (by omega), padZero_two_length _ (by omega),
    padZero_two_length _ (by omega), rfl⟩

unseal Rat.mul Rat.ofScientific in
/-- Witness for C4 on the single word `{word := "hi", start_s := 1.5}`:
its line decomposes as stated and the whole output holds exactly one
newline. -/
theorem convertToLRC_structure_witness :
    (∃ mm ss hh : ℕ, mm < 60 ∧ ss < 60 ∧ hh < 100 ∧
      hh = (utcMillis (jsMs (1.5 : ℚ))).toNat / 10 ∧
      (padZero mm 2).length = 2 ∧ (padZero ss 2).length = 2 ∧
      (padZero hh 2).length = 2 ∧
      lrcLine { word := "hi", start_s := 1.5, end_s := 2 } =
        "[" ++ padZero mm 2 ++ ":" ++ padZero ss 2 ++ "." ++ padZero hh 2 ++
          "]" ++ "hi" ++ "\n") ∧
    (convertToLRC [{ word := "hi", start_s := 1.5, end_s := 2 }]).data.count
      '\n' = 1 :=
  ⟨(convertToLRC_structure [{ word := "hi", start_s := 1.5, end_s := 2 }]).2.1
      _ (List.Mem.head _),
   (convertToLRC_structure [{ word := "hi", start_s := 1.5, end_s := 2 }]).2.2.1
      (by decide)⟩

/-- C5: for both converters the `i`-th emitted fragment is derived from the
`i`-th input word: the outputs are concatenations of per-word fragments, the
fragment lists have exactly the input's length, and the fragment at position
`i` is the one computed from the word at position `i` — no reordering,
dropping, filtering or deduplication. -/
theorem converters_preserve_order (ws : List AlignedWord) :
    convertToLRC ws = String.join (ws.map lrcLine) ∧
    convertToSRT ws = String.join (ws.enum.map fun p => srtEntry p.2 p.1) ∧
    (ws.map lrcLine).length = ws.length ∧
    (ws.enum.map fun p => srtEntry p.2 p.1).length = ws.length ∧
    (∀ i w, ws.get? i = some w →
      (ws.map lrcLine).get? i = some (lrcLine w) ∧
      (ws.enum.map fun p => srtEntry p.2 p.1).get? i = some (srtEntry w i)) := by
  refine ⟨convertToLRC_eq_join ws, convertToSRT_eq_join ws, List.length_map _ _,
    ?_, ?_⟩
  · rw [List.length_map, List.enum_length]
  · intro i w h
    constructor
    · rw [List.get?_map, h]
      rfl
    · rw [List.get?_map, List.get?_enum, h]
      rfl

/-- Witness for C5 at position 1 of a two-word input. -/
theorem converters_preserve_order_witness :
    (([{ word := "a", start_s := 1, end_s := 2 },
       { word := "b", start_s := 3, end_s := 4 }] :
        List AlignedWord).map lrcLine).get? 1 =
      some (lrcLine { word := "b", start_s := 3, end_s := 4 }) ∧
    (([{ word := "a", start_s := 1, end_s := 2 },
       { word := "b", start_s := 3, end_s := 4 }] :
        List AlignedWord).enum.map fun p => srtEntry p.2 p.1).get? 1 =
      some (srtEntry { word := "b", start_s := 3, end_s := 4 } 1) :=
  (converters_preserve_order [{ word := "a", start_s := 1, end_s := 2 },
      { word := "b", start_s := 3, end_s := 4 }]).2.2.2.2 1
    { word := "b", start_s := 3, end_s := 4 } rfl

unseal Rat.mul Rat.ofScientific in
/-- C2: on the single word `{word := "hello", start_s := 1.5, end_s := 2}` the
LRC converter returns exactly `"[00:01.50]hello\n"` and the SRT converter
returns exactly `"1\n00:00:01,500 --> 00:00:02,000\nhello\n\n"`. -/
theorem converters_hello_example :
    convertToLRC [{ word := "hello", start_s := 1.5, end_s := 2 }] =
      "[00:01.50]hello\n" ∧
    convertToSRT [{ word := "hello", start_s := 1.5, end_s := 2 }] =
      "1\n00:00:01,500 --> 00:00:02,000\nhello\n\n" :=
  ⟨by decide, by decide⟩

/-- C10: the LRC converter is a homomorphism for list concatenation: the
output for `xs ++ ys` is the output for `xs` concatenated with the output for
`ys`. -/
theorem convertToLRC_append_hom (xs ys : List AlignedWord) :
    convertToLRC (xs ++ ys) = convertToLRC xs ++ convertToLRC ys := by
  rw [convertToLRC_eq_join, convertToLRC_eq_join, convertToLRC_eq_join,
    List.map_append, join_append]

/-- C9: the LRC output depends only on each word's text and `start_s`; two
inputs of equal length agreeing on those at every position (with arbitrary
`end_s`) convert to the same string. -/
theorem convertToLRC_ignores_end_times (xs ys : List AlignedWord)
    (h : xs.map (fun w => (w.word, w.start_s)) =
      ys.map (fun w => (w.word, w.start_s))) :
    convertToLRC xs = convertToLRC ys := by
  rw [convertToLRC_eq_join, convertToLRC_eq_join]
  congr 1
  induction xs generalizing ys with
  | nil => cases ys with
    | nil => rfl
    | cons b ys => simp at h
  | cons a xs ih =>
      cases ys with
      | nil => simp at h
      | cons b ys =>
          simp only [List.map_cons, List.cons.injEq, Prod.mk.injEq] at h
          obtain ⟨⟨hw, hs⟩, ht⟩ := h
          simp only [List.map_cons, List.cons.injEq]
          exact ⟨by simp [lrcLine, hw, hs], ih ys ht⟩

/-- Witness for C9 at a concrete pair differing only in `end_s`. -/
theorem convertToLRC_ignores_end_times_witness :
    ([{ word := "a", start_s := 1, end_s := 2 }] : List AlignedWord).map
        (fun w => (w.word, w.start_s)) =
      ([{ word := "a", start_s := 1, end_s := 7 }] : List AlignedWord).map
        (fun w => (w.word, w.start_s)) ∧
    convertToLRC [{ word := "a", start_s := 1, end_s := 2 }] =
      convertToLRC [{ word := "a", start_s := 1, end_s := 7 }] :=
  ⟨by decide, convertToLRC_ignores_end_times _ _ (by decide)⟩

/-- C1: classification of `fetchAlignedWords` outcomes: a 401 response throws
`TOKEN_INVALID` (never `null`, never words); a 2xx response returns the
`aligned_words` array when present and `null` when absent; any other response
status and any network failure yield `null`. -/
theorem fetchAlignedWords_classification (o : HttpOutcome) :
    (∀ r, o = .response r → r.status = 401 →
      fetchAlignedWords o = .authError ∧ fetchAlignedWords o ≠ .noWords ∧
        ∀ ws, fetchAlignedWords o ≠ .ok ws) ∧
    (∀ r ws, o = .response r → 200 ≤ r.status → r.status < 300 →
      r.alignedWords = some ws → fetchAlignedWords o = .ok ws) ∧
    (∀ r, o = .response r → 200 ≤ r.status → r.status < 300 →
      r.alignedWords = none → fetchAlignedWords o = .noWords) ∧
    (∀ r, o = .response r → ¬(200 ≤ r.status ∧ r.status < 300) →
      r.status ≠ 401 → fetchAlignedWords o = .noWords) ∧
    (o = .networkFailure → fetchAlignedWords o = .noWords) := by
  refine ⟨?_, ?_, ?_, ?_, ?_⟩
  · rintro r rfl h401
    have hcond : ¬(200 ≤ r.status ∧ r.status < 300) := by omega
    simp [fetchAlignedWords, hcond, h401]
  · rintro r ws rfl h1 h2 hsome
    simp [fetchAlignedWords, And.intro h1 h2, hsome]
  · rintro r rfl h1 h2 hnone
    simp [fetchAlignedWords, And.intro h1 h2, hnone]
  · rintro r rfl hcond h401
    simp [fetchAlignedWords, hcond, h401]
  · rintro rfl
    rfl

/-- Witness for C1 at concrete outcomes: 401, 200-with-words, 200-without,
500, and network failure. -/
theorem fetchAlignedWords_classification_witness :
    fetchAlignedWords (.response ⟨401, none⟩) = .authError ∧
    fetchAlignedWords (.response ⟨200, some []⟩) = .ok [] ∧
    fetchAlignedWords (.response ⟨200, none⟩) = .noWords ∧
    fetchAlignedWords (.response ⟨500, none⟩) = .noWords ∧
    fetchAlignedWords .networkFailure = .noWords :=
  ⟨((fetchAlignedWords_classification _).1 _ rfl rfl).1,
   (fetchAlignedWords_classification _).2.1 _ [] rfl (by norm_num) (by norm_num)
     rfl,
   (fetchAlignedWords_classification _).2.2.1 _ rfl (by norm_num) (by norm_num)
     rfl,
   (fetchAlignedWords_classification _).2.2.2.1 _ rfl (by decide) (by decide),
   (fetchAlignedWords_classification _).2.2.2.2 rfl⟩

/-- C6: in the per-song loop, as long as no authentication failure has
occurred, the song at position `i` produces exactly the event of its own fetch
result at position `i` (a null result warns and the loop continues); the first
authentication failure ends the event list right there, dropping all remaining
identifiers; and the final completion message is the last event in every
case. -/
theorem mainRun_loop_spec (rs : List FetchResult) :
    (mainRun rs).getLast? = some .done ∧
    (∀ i r, (∀ j, j < i → rs.get? j ≠ some .authError) →
      rs.get? i = some r → r ≠ .authError →
      (processSongs rs).get? i = some (songEvent r)) ∧
    (∀ i, (∀ j, j < i → rs.get? j ≠ some .authError) →
      rs.get? i = some .authError →
      processSongs rs = (rs.take i).map songEvent ++ [.abortedAuth]) := by
  refine ⟨List.getLast?_concat _, ?_, ?_⟩
  · induction rs with
    | nil => intro i r _ hget; simp at hget
    | cons a rest ih =>
        intro i r hprev hget hne
        match i with
        | 0 =>
            obtain rfl : a = r := by simpa using hget
            cases a with
            | ok ws => rfl
            | noWords => rfl
            | authError => exact absurd rfl hne
        | Nat.succ i =>
            have ha : a ≠ .authError := by
              intro h
              exact hprev 0 (Nat.succ_pos i) (by simp [h])
            have hstep : processSongs (a :: rest) =
                songEvent a :: processSongs rest := by
              cases a with
              | ok ws => rfl
              | noWords => rfl
              | authError => exact absurd rfl ha
            rw [hstep]
            show (processSongs rest).get? i = some (songEvent r)
            exact ih i r
              (fun j hj => by simpa using hprev (j + 1) (by omega))
              (by simpa using hget) hne
  · induction rs with
    | nil => intro i _ hget; simp at hget
    | cons a rest ih =>
        intro i hprev hget
        match i with
        | 0 =>
            obtain rfl : a = .authError := by simpa using hget
            rfl
        | Nat.succ i =>
            have ha : a ≠ .authError := by
              intro h
              exact hprev 0 (Nat.succ_pos i) (by simp [h])
            have hstep : processSongs (a :: rest) =
                songEvent a :: processSongs rest := by
              cases a with
              | ok ws => rfl
              | noWords => rfl
              | authError => exact absurd rfl ha
            have hrest := ih i
              (fun j hj => by simpa using hprev (j + 1) (by omega))
              (by simpa using hget)
            rw [hstep, hrest]
            rfl

/-- Witness for C6 on `[noWords, ok [], authError, ok []]`: the null result at
position 0 warns and the loop continues, the auth failure at position 2 cuts
the loop, and the completion event is still last. -/
theorem mainRun_loop_spec_witness :
    (mainRun [.noWords, .ok [], .authError, .ok []]).getLast? =
      some .done ∧
    (processSongs [.noWords, .ok [], .authError, .ok []]).get? 0 =
      some .warnedNoWords ∧
    processSongs [.noWords, .ok [], .authError, .ok []] =
      [.warnedNoWords, .saved, .abortedAuth] :=
  ⟨(mainRun_loop_spec [.noWords, .ok [], .authError, .ok []]).1,
   (mainRun_loop_spec [.noWords, .ok [], .authError, .ok []]).2.1 0 .noWords
     (fun j hj => absurd hj (Nat.not_lt_zero j)) rfl (by decide),
   (mainRun_loop_spec [.noWords, .ok [], .authError, .ok []]).2.2 2
     (by decide) rfl⟩

/-- C7 counterexample: on the decline-and-enter-new path (non-empty saved
token, answer `n`) `loadToken` returns immediately after persisting the new
value, performing zero validation probes — not exactly one. -/
theorem loadToken_decline_no_probe :
    ¬ (loadToken ⟨"abc", "n", "tok", "x",
        fun _ => FetchResult.authError⟩).probed.length = 1 := by decide

/-- C7 (amended): the validation probe runs exactly once on the reuse-saved
path (probing the saved token) and on the no-saved-token path (probing the
raw first entry), and if it reports an authentication failure the user is
re-prompted once and the re-entered value is persisted and returned without
any further probe; the decline-and-enter-new path performs no probe at all
and returns the persisted new value directly. -/
theorem loadToken_probe_policy (env : TokenEnv) :
    (jsTrim env.saved ≠ "" → jsToLower env.choice = "n" →
      loadToken env = ⟨jsTrim env.entry1, [jsTrim env.entry1], []⟩) ∧
    (jsTrim env.saved ≠ "" → jsToLower env.choice ≠ "n" →
      (loadToken env).probed = [jsTrim env.saved] ∧
      (env.probe (jsTrim env.saved) = .authError →
        (loadToken env).token = jsTrim env.entry2 ∧
        (loadToken env).writes = [jsTrim env.entry2]) ∧
      (env.probe (jsTrim env.saved) ≠ .authError →
        (loadToken env).token = jsTrim (jsTrim env.saved) ∧
        (loadToken env).writes = [])) ∧
    (jsTrim env.saved = "" →
      (loadToken env).probed = [env.entry1] ∧
      (env.probe env.entry1 = .authError →
        (loadToken env).token = jsTrim env.entry2 ∧
        (loadToken env).writes = [jsTrim env.entry1, jsTrim env.entry2]) ∧
      (env.probe env.entry1 ≠ .authError →
        (loadToken env).token = jsTrim env.entry1 ∧
        (loadToken env).writes = [jsTrim env.entry1])) := by
  refine ⟨?_, ?_, ?_⟩
  · intro hne hn
    simp only [loadToken, if_pos hne, if_pos hn]
  · intro hne hnotn
    simp only [loadToken, if_pos hne, if_neg hnotn, validateToken]
    cases hp : env.probe (jsTrim env.saved) with
    | ok ws => exact ⟨rfl, fun h => FetchResult.noConfusion h,
        fun _ => ⟨rfl, rfl⟩⟩
    | noWords => exact ⟨rfl, fun h => FetchResult.noConfusion h,
        fun _ => ⟨rfl, rfl⟩⟩
    | authError => exact ⟨rfl, fun _ => ⟨rfl, rfl⟩, fun h => absurd rfl h⟩
  · intro heq
    simp only [loadToken, heq, if_neg (fun h : ¬ ("" = "") => h rfl),
      validateToken]
    cases hp : env.probe env.entry1 with
    | ok ws => exact ⟨rfl, fun h => FetchResult.noConfusion h,
        fun _ => ⟨rfl, rfl⟩⟩
    | noWords => exact ⟨rfl, fun h => FetchResult.noConfusion h,
        fun _ => ⟨rfl, rfl⟩⟩
    | authError => exact ⟨rfl, fun _ => ⟨rfl, rfl⟩, fun h => absurd rfl h⟩

/-- Witness for C7's amended theorem on all three paths: decline (no probe),
reuse with passing probe, and fresh entry with failing probe followed by one
re-prompt. -/
theorem loadToken_probe_policy_witness :
    loadToken ⟨"abc", "n", "t1", "t2", fun _ => .noWords⟩ =
      ⟨"t1", ["t1"], []⟩ ∧
    (loadToken ⟨"abc", "y", "t1", "t2", fun _ => .noWords⟩).probed = ["abc"] ∧
    (loadToken ⟨"abc", "y", "t1", "t2", fun _ => .noWords⟩).token = "abc" ∧
    (loadToken ⟨"", "y", "t1", "t2", fun _ => .authError⟩).probed = ["t1"] ∧
    (loadToken ⟨"", "y", "t1", "t2", fun _ => .authError⟩).writes =
      ["t1", "t2"] :=
  ⟨(loadToken_probe_policy ⟨"abc", "n", "t1", "t2", fun _ => .noWords⟩).1
     (by decide) (by decide),
   ((loadToken_probe_policy ⟨"abc", "y", "t1", "t2", fun _ => .noWords⟩).2.1
     (by decide) (by decide)).1,
   (((loadToken_probe_policy ⟨"abc", "y", "t1", "t2", fun _ => .noWords⟩).2.1
     (by decide) (by decide)).2.2 (by decide)).1,
   ((loadToken_probe_policy ⟨"", "y", "t1", "t2", fun _ => .authError⟩).2.2
     (by decide)).1,
   (((loadToken_probe_policy ⟨"", "y", "t1", "t2", fun _ => .authError⟩).2.2
     (by decide)).2.1 (by decide)).2⟩

/-- C8: two saves of the same song identifier whose embedded (sanitized ISO)
timestamp components differ produce different filenames: the fixed parts of
the filename template cancel, so distinct timestamp components force distinct
filenames. -/
theorem saveFileName_distinct_of_timestamp (songId fileType : String)
    (t1 t2 : ℤ)
    (h : sanitizeTimestamp (isoString t1) ≠ sanitizeTimestamp (isoString t2)) :
    saveFileName songId fileType t1 ≠ saveFileName songId fileType t2 := by
  have key : ∀ x y : String,
      "aligned_words_" ++ songId ++ "_" ++ x ++ "." ++ fileType =
        "aligned_words_" ++ songId ++ "_" ++ y ++ "." ++ fileType →
      x = y := by
    intro x y he
    have hd := congrArg String.data he
    simp only [String.data_append, List.append_assoc] at hd
    exact String.ext (List.append_cancel_right
      (List.append_cancel_left (List.append_cancel_left
        (List.append_cancel_left hd))))
  intro he
  unfold saveFileName at he
  exact h (key _ _ he)

/-- Witness for C8 at clock readings 0 ms and 1 ms. -/
theorem saveFileName_distinct_witness :
    sanitizeTimestamp (isoString 0) ≠ sanitizeTimestamp (isoString 1) ∧
    saveFileName "song" "lrc" 0 ≠ saveFileName "song" "lrc" 1 :=
  ⟨by decide, saveFileName_distinct_of_timestamp "song" "lrc" 0 1 (by decide)⟩

end Suno
